import Mathlib

/-!
Verification of the `file-extractor` Go library (`extractor.go`).

Shallow embedding conventions:
* Go byte strings (file contents, extracted text, PDF page text) are `List Nat`
  with each byte below 256; `string(data)` in Go is the identity on bytes.
* Paths and MIME strings are Lean `String`s; the comparisons the code performs
  on them are ASCII-level (`strings.ToLower` is modelled on ASCII letters,
  which covers every string the code compares against).
* The filesystem and the PDF library (`github.com/dslipak/pdf`) are external
  collaborators; a call's view of them is passed in explicitly (`FsFile`,
  `PdfFileResult`).
* `float64` arithmetic appears only in the printable-ratio comparison
  `printableRatio > 0.85`; it is modelled exactly over the integers as
  `100 * printableCount > 85 * totalChars`, which agrees with the float
  computation for every sample the code can build (samples are at most 512
  bytes).
-/

/-- Go's `filepath.Ext` scan, over the reversed character list: walk backwards
until a path separator, returning `'.' ::` the suffix when a dot is found.
`acc` holds the characters already passed, in forward order. -/
def goExtCore : List Char → List Char → List Char
  | [], _ => []
  | c :: rest, acc =>
    if c = '/' then []
    else if c = '.' then '.' :: acc
    else goExtCore rest (c :: acc)

/-- `filepath.Ext`: the suffix beginning at the final dot in the final
path element (empty when there is no dot). Unix separators. -/
def goExt (path : String) : String :=
  ⟨goExtCore path.data.reverse []⟩

/-- `strings.ToLower`, modelled on ASCII letters (the code only compares the
result against ASCII strings). -/
def goToLower (s : String) : String :=
  ⟨s.data.map Char.toLower⟩

/-- Boolean list "starts with" used to model `strings.HasPrefix`. -/
def listStartsWith (p s : List Char) : Bool :=
  List.isPrefixOf p s

/-- `strings.HasPrefix`. -/
def strStartsWith (p s : String) : Bool :=
  listStartsWith p.data s.data

/-- The ASCII whitespace characters `strings.TrimSpace` trims (the MIME
strings the code trims only ever carry ASCII spaces). -/
def isSpaceChar (c : Char) : Bool :=
  c = ' ' || c = '\t' || c = '\n' || c = '\r' || c = '\x0b' || c = '\x0c'

/-- `strings.TrimSpace` on a character list. -/
def trimChars (l : List Char) : List Char :=
  ((l.dropWhile isSpaceChar).reverse.dropWhile isSpaceChar).reverse

/-- `strings.Split(s, ";")[0]`: the part of `s` before the first `';'`. -/
def goSplitSemi (s : String) : String :=
  ⟨s.data.takeWhile (fun c => c ≠ ';')⟩

/-- ASCII whitespace bytes, for `strings.TrimSpace` applied to extracted PDF
text (non-ASCII Unicode whitespace is not modelled; the code only tests the
trimmed text for emptiness). -/
def isSpaceByte (b : Nat) : Bool :=
  b = 9 || b = 10 || b = 11 || b = 12 || b = 13 || b = 32

/-- `strings.TrimSpace` on a byte string. -/
def trimSpaceBytes (l : List Nat) : List Nat :=
  ((l.dropWhile isSpaceByte).reverse.dropWhile isSpaceByte).reverse

/-- A UTF-8 continuation byte, `0x80..0xBF`. -/
def utf8Cont (b : Nat) : Bool :=
  128 ≤ b && b ≤ 191

/-- The byte-at-a-time run of Go's `utf8.Valid`: `pending` continuation
bytes are still owed, the next one constrained to `[lo,hi]` (the accept
range of the second byte depends on the first, as in Go's `acceptRanges`
table; later continuations are plain `0x80..0xBF`). Rejects overlong forms,
surrogates and code points above U+10FFFF. -/
def utf8Run (pending lo hi : Nat) : List Nat → Bool
  | [] => pending = 0
  | b :: rest =>
    if pending = 0 then
      if b ≤ 0x7F then utf8Run 0 0 0 rest
      else if 0xC2 ≤ b && b ≤ 0xDF then utf8Run 1 0x80 0xBF rest
      else if b = 0xE0 then utf8Run 2 0xA0 0xBF rest
      else if (0xE1 ≤ b && b ≤ 0xEC) || b = 0xEE || b = 0xEF then utf8Run 2 0x80 0xBF rest
      else if b = 0xED then utf8Run 2 0x80 0x9F rest
      else if b = 0xF0 then utf8Run 3 0x90 0xBF rest
      else if 0xF1 ≤ b && b ≤ 0xF3 then utf8Run 3 0x80 0xBF rest
      else if b = 0xF4 then utf8Run 3 0x80 0x8F rest
      else false
    else
      if lo ≤ b && b ≤ hi then utf8Run (pending - 1) 0x80 0xBF rest
      else false

/-- Go's `utf8.Valid` / `utf8.ValidString`: the byte list is a sequence of
well-formed UTF-8 encodings (RFC 3629). -/
def utf8Valid (data : List Nat) : Bool :=
  utf8Run 0 0 0 data

/-- The known-text extension allow-list of `isTextByExtension` (the Go map's
key set; every value in the map is `true`). -/
def textExtensions : List String :=
  [".txt", ".md", ".markdown", ".rst", ".csv", ".tsv", ".log", ".conf",
   ".cfg", ".ini", ".yaml", ".yml", ".json", ".xml", ".html", ".htm",
   ".css", ".js", ".ts", ".py", ".go", ".java", ".c", ".cpp", ".h",
   ".hpp", ".sh", ".bash", ".zsh", ".fish", ".ps1", ".sql", ".r", ".rb",
   ".php", ".pl", ".tex", ".bib", ""]

/-- `isTextByExtension`: lower-cased extension looked up in the fixed set. -/
def isTextByExtension (filePath : String) : Bool :=
  textExtensions.contains (goToLower (goExt filePath))

/-- The `textTypes` map of `isTextContentType` (key set of the Go map). -/
def textTypes : List String :=
  ["text/plain", "text/html", "text/css", "text/javascript", "text/csv",
   "text/xml", "application/json", "application/xml",
   "application/javascript", "application/x-sh", "application/x-python",
   "application/x-perl", "application/x-ruby", "application/x-php",
   "application/sql", "application/yaml", "application/x-yaml"]

/-- The normalisation `isTextContentType` applies before matching: strip a
`';'`-parameter suffix, lower-case, trim. -/
def mimeMainType (contentType : String) : String :=
  ⟨trimChars (goToLower (goSplitSemi contentType)).data⟩

/-- `isTextContentType`: `text/` by prefix, or membership in the fixed map. -/
def isTextContentType (contentType : String) : Bool :=
  let mainType := mimeMainType contentType
  if strStartsWith "text/" mainType then true
  else textTypes.contains mainType

/-- The per-byte "printable" test of `isLikelyTextContent`: ASCII printable
`[32,126]` or tab/newline/carriage-return. -/
def isPrintableByte (b : Nat) : Bool :=
  (32 ≤ b && b ≤ 126) || b = 9 || b = 10 || b = 13

/-- `printableCount` accumulated by the loop in `isLikelyTextContent`. -/
def printableCount (data : List Nat) : Nat :=
  data.countP isPrintableByte

/-- `controlCount` accumulated by the same loop (tracked by the source but
never used for the verdict). -/
def controlCount (data : List Nat) : Nat :=
  data.countP (fun b => !isPrintableByte b && b < 32)

/-- `isLikelyTextContent`: empty is text; otherwise require valid UTF-8, no
NUL byte, and printable ratio strictly above 0.85 (`float64` comparison
modelled exactly as `100 * printable > 85 * total`). The inner
`totalChars == 0` test of the source is kept although it is unreachable. -/
def isLikelyTextContent (data : List Nat) : Bool :=
  if data.length = 0 then true
  else if !utf8Valid data then false
  else if data.contains 0 then false
  else
    let printable := printableCount data
    let totalChars := data.length
    if totalChars = 0 then true
    else decide (100 * printable > 85 * totalChars)

/-- Modelled from the spec: `http.DetectContentType`, the content-type
sniffing primitive, is an external collaborator whose source is not part of
this repository. Per the spec it matches leading byte signatures (`%PDF-`,
`\x89PNG`, `GIF8`, optional leading whitespace then `<` for HTML), falls back
to `text/plain` when the sample holds no binary byte (the pure-ASCII
fallback, which a zero-length sample satisfies vacuously), and defaults to
`application/octet-stream`. -/
def detectContentType (sample : List Nat) : String :=
  let afterWS := sample.dropWhile (fun b => b = 9 || b = 10 || b = 12 || b = 13 || b = 32)
  if List.isPrefixOf [0x25, 0x50, 0x44, 0x46, 0x2D] sample then "application/pdf"
  else if List.isPrefixOf [0x89, 0x50, 0x4E, 0x47, 0x0D, 0x0A, 0x1A, 0x0A] sample then "image/png"
  else if List.isPrefixOf [0x47, 0x49, 0x46, 0x38] sample then "image/gif"
  else if List.isPrefixOf [0x3C] afterWS then "text/html; charset=utf-8"
  else if sample.all (fun b =>
      !(b ≤ 8 || b = 0x0B || (0x0E ≤ b && b ≤ 0x1A) || (0x1C ≤ b && b ≤ 0x1F))) then
    "text/plain; charset=utf-8"
  else "application/octet-stream"

/-- Result of one page of a PDF document, as seen through the library
boundary: `reader.Page(i).V.IsNull()`, a failing `GetPlainText`, or the
page's plain text (a Go byte string). -/
inductive PdfPageResult where
  | null
  | failed
  | text (t : List Nat)
deriving DecidableEq

/-- What one call of `extractPDFText` sees of the path: `os.Open` failing,
`file.Stat` failing, `pdf.NewReader` failing, or a constructed reader whose
pages are listed in order (`NumPage` is the list length, `Page i` is entry
`i - 1`). -/
inductive PdfFileResult where
  | openErr (msg : String)
  | statErr (msg : String)
  | newReaderErr
  | doc (pages : List PdfPageResult)
deriving DecidableEq

/-- What one call of `ExtractText` sees of the path through the filesystem:
the result of `os.Open` followed by the first `Read` of up to 512 bytes
(an `io.EOF` with no data is the `.ok []` case, as in the source), and the
result of `os.ReadFile`. `.err` carries the formatted error text. -/
structure FsFile where
  openSample : Except String (List Nat)
  readFile : Except String (List Nat)

/-- The whole external world one `ExtractText` call can observe for a path. -/
structure FileModel where
  fs : FsFile
  pdf : PdfFileResult

/-- The Go return triple `(success, text, error)`; `text` is a byte string. -/
structure ExtractResult where
  success : Bool
  text : List Nat
  error : Option String
deriving DecidableEq

/-- `isTextFile`: extension first, then content-type sniffing on the ≤512-byte
sample, then the byte heuristic; I/O failures of the sampling step surface as
`.err`. -/
def isTextFile (filePath : String) (f : FsFile) : Except String (Bool × String) :=
  if isTextByExtension filePath then .ok (true, "text/plain")
  else
    match f.openSample with
    | .error e => .error e
    | .ok sample =>
      if isTextContentType (detectContentType sample) then
        .ok (true, detectContentType sample)
      else if sample.length > 0 && isLikelyTextContent sample then .ok (true, "text/plain")
      else .ok (false, detectContentType sample)

/-- The body of the page loop of `extractPDFText` for index `i`: a null page
or a failing `GetPlainText` leaves the buffer unchanged (`continue`);
otherwise the page text is appended, followed by `"\n"` when `i < numPages`. -/
def pdfLoopBody (pages : List PdfPageResult) (numPages i : Nat) (buf : List Nat) : List Nat :=
  match pages.get? (i - 1) with
  | some (PdfPageResult.text t) => buf ++ t ++ (if i < numPages then [10] else [])
  | _ => buf

/-- The page loop of `extractPDFText`, run over the index list. -/
def pdfLoop (pages : List PdfPageResult) (numPages : Nat) : List Nat → List Nat → List Nat
  | [], buf => buf
  | i :: rest, buf => pdfLoop pages numPages rest (pdfLoopBody pages numPages i buf)

/-- The accumulated buffer after the loop `for i := 1; i <= numPages; i++`. -/
def pdfAllText (pages : List PdfPageResult) (numPages : Nat) : List Nat :=
  pdfLoop pages numPages ((List.range numPages).map (· + 1)) []

/-- `extractPDFText`: open/stat failures are fatal errors, a failing
`pdf.NewReader` is a plain negative, otherwise at most 100 pages are walked
and an all-whitespace accumulation is a negative. -/
def extractPDFText (r : PdfFileResult) : ExtractResult :=
  match r with
  | .openErr m => ⟨false, [], some ("failed to open PDF file: " ++ m)⟩
  | .statErr m => ⟨false, [], some ("failed to get PDF file info: " ++ m)⟩
  | .newReaderErr => ⟨false, [], none⟩
  | .doc pages =>
    let numPages := if pages.length > 100 then 100 else pages.length
    let extractedText := pdfAllText pages numPages
    if (trimSpaceBytes extractedText).length = 0 then ⟨false, [], none⟩
    else ⟨true, extractedText, none⟩

/-- `ExtractText`: the `.pdf` extension short-circuits to the PDF extractor;
otherwise classify, read the whole file on a positive verdict, and validate
it as UTF-8. -/
def ExtractText (filePath : String) (m : FileModel) : ExtractResult :=
  if goToLower (goExt filePath) = ".pdf" then extractPDFText m.pdf
  else
    match isTextFile filePath m.fs with
    | .error e => ⟨false, [], some ("failed to analyze file type: " ++ e)⟩
    | .ok (isText, _) =>
      if !isText then ⟨false, [], none⟩
      else
        match m.fs.readFile with
        | .error e => ⟨false, [], some ("failed to read file " ++ filePath ++ ": " ++ e)⟩
        | .ok data =>
          if !utf8Valid data then ⟨false, [], none⟩
          else ⟨true, data, none⟩

/-- The path names a readable regular file with content `data`: the sampling
read yields the first ≤512 bytes and `os.ReadFile` yields the whole content. -/
def FileModel.readable (m : FileModel) (data : List Nat) : Prop :=
  m.fs.openSample = .ok (data.take 512) ∧ m.fs.readFile = .ok data

/-- The path names no openable file: every filesystem access fails. -/
def FileModel.absent (m : FileModel) : Prop :=
  (∃ e, m.fs.openSample = .error e) ∧ (∃ e, m.fs.readFile = .error e) ∧
    (∃ e, m.pdf = .openErr e)

/-- The byte count the claim about `isLikelyTextContent` describes: bytes in
the ASCII printable range `[32,126]` or equal to tab/newline/carriage-return. -/
def claimPrintableCount (data : List Nat) : Nat :=
  (data.filter (fun b => decide ((32 ≤ b ∧ b ≤ 126) ∨ b = 9 ∨ b = 10 ∨ b = 13))).length

/-- The 11-entry `application/*` allow-list the claim about
`isTextContentType` enumerates. -/
def claimTextTypes : List String :=
  ["application/json", "application/xml", "application/javascript",
   "application/x-sh", "application/x-python", "application/x-perl",
   "application/x-ruby", "application/x-php", "application/sql",
   "application/yaml", "application/x-yaml"]

/-- What page slot `i` (1-based) contributes to the accumulated PDF text: its
plain text, followed by a newline when `i` is not the last considered slot;
null and failing pages contribute nothing. -/
def pageTextAt (pages : List PdfPageResult) (numPages i : Nat) : List Nat :=
  match pages.get? (i - 1) with
  | some (PdfPageResult.text t) => t ++ (if i < numPages then [10] else [])
  | _ => []

/-- Closed form of the accumulated PDF text (the amended description). -/
def pagesTextAmended (pages : List PdfPageResult) : List Nat :=
  let n := min pages.length 100
  (((List.range n).map (· + 1)).map (pageTextAt pages n)).flatten

/-- The plain texts of the pages that contribute (non-null, extraction
succeeded), in page order. -/
def contributedTexts (pages : List PdfPageResult) : List (List Nat) :=
  pages.filterMap (fun p =>
    match p with
    | PdfPageResult.text t => some t
    | _ => none)

/-- The text the claim about `extractPDFText` describes: the contributing
pages among slots `1..min(pageCount,100)` joined by single newlines, with no
newline after the final one. -/
def claimPdfText (pages : List PdfPageResult) : List Nat :=
  List.intercalate [10] (contributedTexts (pages.take (min pages.length 100)))

/-- A readable ordinary (non-PDF-parsable) file with content `data`. -/
def plainFile (data : List Nat) : FileModel :=
  ⟨⟨.ok (data.take 512), .ok data⟩, .newReaderErr⟩

/-- A path on which every filesystem access fails. -/
def absentModel : FileModel :=
  ⟨⟨.error "open missing: no such file or directory",
    .error "open missing: no such file or directory"⟩,
   .openErr "open missing: no such file or directory"⟩

theorem plainFile_readable (data : List Nat) : (plainFile data).readable data :=
  ⟨rfl, rfl⟩

theorem extractPDFText_invariant (r : PdfFileResult) :
    ((extractPDFText r).success = false → (extractPDFText r).text = []) ∧
    ((extractPDFText r).error ≠ none →
      (extractPDFText r).success = false ∧ (extractPDFText r).text = []) := by
  cases r with
  | openErr m => simp [extractPDFText]
  | statErr m => simp [extractPDFText]
  | newReaderErr => simp [extractPDFText]
  | doc pages =>
    simp only [extractPDFText]
    split <;> split <;> simp

/-- C1: at every return point of `ExtractText` (and of `extractPDFText`, for
the PDF path), `success = false` forces `text = ""`, and a non-nil error
forces `success = false` and `text = ""`. -/
theorem claim1_return_triple_invariant :
    (∀ (path : String) (m : FileModel),
      ((ExtractText path m).success = false → (ExtractText path m).text = []) ∧
      ((ExtractText path m).error ≠ none →
        (ExtractText path m).success = false ∧ (ExtractText path m).text = [])) ∧
    (∀ r : PdfFileResult,
      ((extractPDFText r).success = false → (extractPDFText r).text = []) ∧
      ((extractPDFText r).error ≠ none →
        (extractPDFText r).success = false ∧ (extractPDFText r).text = [])) := by
  refine ⟨fun path m => ?_, extractPDFText_invariant⟩
  by_cases hpdf : goToLower (goExt path) = ".pdf"
  · simpa [ExtractText, hpdf] using extractPDFText_invariant m.pdf
  · simp only [ExtractText, if_neg hpdf]
    cases h : isTextFile path m.fs with
    | error e => simp
    | ok v =>
      obtain ⟨b, ct⟩ := v
      cases b with
      | false => simp
      | true =>
        cases h2 : m.fs.readFile with
        | error e => simp
        | ok data =>
          by_cases hv : utf8Valid data <;> simp [hv]

theorem listStartsWith_append (p : List Char) :
    ∀ q r : List Char, listStartsWith p q = true → listStartsWith p (q ++ r) = true := by
  induction p with
  | nil => intro q r _; simp [listStartsWith, List.isPrefixOf]
  | cons a as ih =>
    intro q r h
    cases q with
    | nil => simp [listStartsWith, List.isPrefixOf] at h
    | cons b bs =>
      simp only [listStartsWith, List.isPrefixOf, Bool.and_eq_true, beq_iff_eq] at h ⊢
      exact ⟨h.1, ih bs r h.2⟩

theorem strStartsWith_append (p q r : String) (h : strStartsWith p q = true) :
    strStartsWith p (q ++ r) = true := by
  obtain ⟨qd⟩ := q
  obtain ⟨rd⟩ := r
  exact listStartsWith_append p.data qd rd h

/-- C6: a `.pdf` file that opens and stats but on which the PDF reader cannot
be constructed yields the negative verdict `(false, "", nil)`, not an error. -/
theorem claim6_malformed_pdf_negative (path : String) (m : FileModel)
    (hext : goToLower (goExt path) = ".pdf") (hpdf : m.pdf = .newReaderErr) :
    ExtractText path m = ⟨false, [], none⟩ := by
  simp [ExtractText, hext, hpdf, extractPDFText]

theorem claim6_witness :
    ExtractText "doc.pdf" (plainFile []) = ⟨false, [], none⟩ :=
  claim6_malformed_pdf_negative "doc.pdf" (plainFile []) (by decide) rfl

theorem isTextFile_no_error (path : String) (f : FsFile) (sample : List Nat)
    (h : f.openSample = .ok sample) :
    ∃ b ct, isTextFile path f = Except.ok (b, ct) := by
  unfold isTextFile
  by_cases hx : isTextByExtension path
  · exact ⟨true, "text/plain", by simp [hx]⟩
  · rw [if_neg hx, h]
    by_cases h1 : isTextContentType (detectContentType sample)
    · exact ⟨true, detectContentType sample, by simp [h1]⟩
    · by_cases h2 : sample.length > 0 && isLikelyTextContent sample
      · exact ⟨true, "text/plain", by simp [h1, h2]⟩
      · exact ⟨false, detectContentType sample, by simp [h1, h2]⟩

/-- C4: a readable non-`.pdf` file whose full content is not valid UTF-8
yields `(false, "", nil)` — a negative verdict with no error. -/
theorem claim4_invalid_utf8_negative (path : String) (m : FileModel) (data : List Nat)
    (hext : goToLower (goExt path) ≠ ".pdf")
    (hread : m.readable data)
    (hinvalid : utf8Valid data = false) :
    ExtractText path m = ⟨false, [], none⟩ := by
  obtain ⟨hs, hr⟩ := hread
  simp only [ExtractText, if_neg hext]
  obtain ⟨b, ct, hcl⟩ := isTextFile_no_error path m.fs _ hs
  rw [hcl]
  cases b with
  | false => simp
  | true => simp [hr, hinvalid]

theorem claim4_witness :
    ExtractText "f.bin" (plainFile [255, 254, 253]) = ⟨false, [], none⟩ :=
  claim4_invalid_utf8_negative "f.bin" (plainFile [255, 254, 253]) [255, 254, 253]
    (by decide) (plainFile_readable _) (by decide)

/-- C5: a path naming no readable file always surfaces a non-nil error whose
message names the failing stage, alongside `(false, "")`. -/
theorem claim5_missing_file_error (path : String) (m : FileModel) (h : m.absent) :
    ∃ msg, ExtractText path m = ⟨false, [], some msg⟩ ∧
      (strStartsWith "failed to analyze file type" msg = true ∨
       strStartsWith "failed to read file" msg = true ∨
       strStartsWith "failed to open PDF file" msg = true) := by
  obtain ⟨⟨e1, h1⟩, ⟨e2, h2⟩, ⟨e3, h3⟩⟩ := h
  by_cases hpdf : goToLower (goExt path) = ".pdf"
  · refine ⟨"failed to open PDF file: " ++ e3, ?_, Or.inr (Or.inr ?_)⟩
    · simp [ExtractText, hpdf, h3, extractPDFText]
    · exact strStartsWith_append _ _ _ (by decide)
  · by_cases hx : isTextByExtension path
    · refine ⟨"failed to read file " ++ path ++ ": " ++ e2, ?_, Or.inr (Or.inl ?_)⟩
      · simp [ExtractText, hpdf, isTextFile, hx, h2]
      · apply strStartsWith_append
        apply strStartsWith_append
        exact strStartsWith_append _ _ _ (by decide)
    · refine ⟨"failed to analyze file type: " ++ e1, ?_, Or.inl ?_⟩
      · simp [ExtractText, hpdf, isTextFile, hx, h1]
      · exact strStartsWith_append _ _ _ (by decide)

theorem claim5_witness :
    ∃ msg, ExtractText "missing.pdf" absentModel = ⟨false, [], some msg⟩ ∧
      (strStartsWith "failed to analyze file type" msg = true ∨
       strStartsWith "failed to read file" msg = true ∨
       strStartsWith "failed to open PDF file" msg = true) :=
  claim5_missing_file_error "missing.pdf" absentModel ⟨⟨_, rfl⟩, ⟨_, rfl⟩, ⟨_, rfl⟩⟩

/-- C8: a readable `.txt` file whose content is valid UTF-8 round-trips: the
content comes back unchanged with `(true, content, nil)`. -/
theorem claim8_txt_roundtrip (path : String) (m : FileModel) (data : List Nat)
    (hext : goToLower (goExt path) = ".txt")
    (hread : m.readable data)
    (hvalid : utf8Valid data = true) :
    ExtractText path m = ⟨true, data, none⟩ := by
  obtain ⟨hs, hr⟩ := hread
  have hpdf : ¬ goToLower (goExt path) = ".pdf" := by rw [hext]; decide
  have hx : isTextByExtension path = true := by
    unfold isTextByExtension
    rw [hext]
    decide
  simp [ExtractText, hpdf, isTextFile, hx, hr, hvalid]

theorem claim8_witness :
    ExtractText "notes.txt" (plainFile [76, 105, 110, 101, 49, 10, 76, 105, 110, 101, 50]) =
      ⟨true, [76, 105, 110, 101, 49, 10, 76, 105, 110, 101, 50], none⟩ :=
  claim8_txt_roundtrip "notes.txt" _ _ (by decide) (plainFile_readable _) (by decide)

/-- C9: the NUL-byte veto lives only in the sample heuristic; once a readable
non-`.pdf` file classifies as text, a valid-UTF-8 content containing NUL
bytes is returned successfully with the NUL bytes included. -/
theorem claim9_nul_passthrough (path : String) (m : FileModel) (data : List Nat) (ct : String)
    (hext : goToLower (goExt path) ≠ ".pdf")
    (hread : m.readable data)
    (hclass : isTextFile path m.fs = .ok (true, ct))
    (hvalid : utf8Valid data = true)
    (hnul : (0 : Nat) ∈ data) :
    ExtractText path m = ⟨true, data, none⟩ ∧ (0 : Nat) ∈ (ExtractText path m).text := by
  have hres : ExtractText path m = ⟨true, data, none⟩ := by
    simp [ExtractText, hext, hclass, hread.2, hvalid]
  exact ⟨hres, by rw [hres]; exact hnul⟩

theorem claim9_witness :
    ExtractText "a.txt" (plainFile [65, 0, 66]) = ⟨true, [65, 0, 66], none⟩ ∧
      (0 : Nat) ∈ (ExtractText "a.txt" (plainFile [65, 0, 66])).text :=
  claim9_nul_passthrough "a.txt" (plainFile [65, 0, 66]) [65, 0, 66] "text/plain"
    (by decide) (plainFile_readable _) rfl (by decide) (by decide)

/-- C10: a readable zero-length non-`.pdf` file succeeds with the empty text:
either its extension is text-positive, or the empty sample sniffs as
`text/plain`. -/
theorem claim10_empty_file_success (path : String) (m : FileModel)
    (hext : goToLower (goExt path) ≠ ".pdf")
    (hread : m.readable []) :
    ExtractText path m = ⟨true, [], none⟩ := by
  obtain ⟨hs, hr⟩ := hread
  simp only [List.take_nil] at hs
  have hu : utf8Valid [] = true := rfl
  by_cases hx : isTextByExtension path
  · simp [ExtractText, hext, isTextFile, hx, hr, hu]
  · have hct : isTextContentType (detectContentType []) = true := by decide
    simp [ExtractText, hext, isTextFile, hx, hs, hct, hr, hu]

theorem claim10_witness :
    ExtractText "empty.bin" (plainFile []) = ⟨true, [], none⟩ :=
  claim10_empty_file_success "empty.bin" (plainFile []) (by decide) (plainFile_readable [])

theorem isPrintableByte_eq (b : Nat) :
    isPrintableByte b = decide ((32 ≤ b ∧ b ≤ 126) ∨ b = 9 ∨ b = 10 ∨ b = 13) := by
  rw [Bool.eq_iff_iff]
  simp [isPrintableByte]
  tauto

theorem printableCount_eq_claim (data : List Nat) :
    printableCount data = claimPrintableCount data := by
  unfold printableCount claimPrintableCount
  rw [List.countP_eq_length_filter]
  have h : isPrintableByte =
      fun b => decide ((32 ≤ b ∧ b ≤ 126) ∨ b = 9 ∨ b = 10 ∨ b = 13) :=
    funext isPrintableByte_eq
  rw [h]

theorem contains_zero_iff (data : List Nat) :
    data.contains 0 = true ↔ (0 : Nat) ∈ data := by
  simp [List.contains, List.elem_iff]

theorem utf8Run_ascii : ∀ data : List Nat, (∀ b ∈ data, b ≤ 127) → utf8Run 0 0 0 data = true
  | [], _ => rfl
  | b :: rest, h => by
    have hb : b ≤ 127 := h b (by simp)
    rw [utf8Run, if_pos rfl, if_pos (by omega : b ≤ 0x7F)]
    exact utf8Run_ascii rest (fun x hx => h x (by simp [hx]))

theorem utf8Valid_ascii (data : List Nat) (h : ∀ b ∈ data, b ≤ 127) :
    utf8Valid data = true :=
  utf8Run_ascii data h

/-- C2: `isLikelyTextContent` is true exactly on the empty sample or on a
valid-UTF-8, NUL-free sample whose printable fraction strictly exceeds 0.85;
hence any sample holding a NUL byte is rejected, and any non-empty all-ASCII-
printable sample is accepted. -/
theorem claim2_isLikelyText :
    (∀ data : List Nat,
      isLikelyTextContent data = true ↔
        (data = [] ∨ (utf8Valid data = true ∧ (0 : Nat) ∉ data ∧
          85 * data.length < 100 * claimPrintableCount data))) ∧
    (∀ data : List Nat, (0 : Nat) ∈ data → isLikelyTextContent data = false) ∧
    (∀ data : List Nat, data ≠ [] → (∀ b ∈ data, 32 ≤ b ∧ b ≤ 126) →
      isLikelyTextContent data = true) := by
  have main : ∀ data : List Nat,
      isLikelyTextContent data = true ↔
        (data = [] ∨ (utf8Valid data = true ∧ (0 : Nat) ∉ data ∧
          85 * data.length < 100 * claimPrintableCount data)) := by
    intro data
    unfold isLikelyTextContent
    by_cases hempty : data = []
    · subst hempty
      simp
    · have hlen : ¬ data.length = 0 := by
        simpa [List.length_eq_zero] using hempty
      rw [if_neg hlen]
      cases hu : utf8Valid data with
      | false =>
        constructor
        · intro h
          simp at h
        · rintro (h0 | ⟨hvalid, _⟩)
          · exact absurd h0 hempty
          · exact absurd hvalid (by simp)
      | true =>
        cases hz : data.contains 0 with
        | true =>
          have hmem : (0 : Nat) ∈ data := (contains_zero_iff data).mp hz
          constructor
          · intro h
            simp at h
          · rintro (h0 | ⟨_, hnot, _⟩)
            · exact absurd h0 hempty
            · exact absurd hmem hnot
        | false =>
          have hnmem : (0 : Nat) ∉ data := by simpa using hz
          simp only [Bool.not_true, Bool.false_eq_true, if_false, if_neg hlen,
            printableCount_eq_claim, decide_eq_true_eq, gt_iff_lt]
          constructor
          · intro hgt
            exact Or.inr ⟨by simp, hnmem, by omega⟩
          · rintro (h0 | ⟨_, _, hc⟩)
            · exact absurd h0 hempty
            · omega
  refine ⟨main, fun data hmem => ?_, fun data hne hall => ?_⟩
  · by_contra hx
    have ht : isLikelyTextContent data = true := by
      cases h : isLikelyTextContent data
      · exact absurd h hx
      · rfl
    rcases (main data).mp ht with h0 | ⟨_, hnot, _⟩
    · subst h0
      simp at hmem
    · exact hnot hmem
  · refine (main data).mpr (Or.inr ⟨?_, ?_, ?_⟩)
    · exact utf8Valid_ascii data (fun b hb => by have := hall b hb; omega)
    · intro hm
      have := (hall 0 hm).1
      omega
    · have hcount : claimPrintableCount data = data.length := by
        rw [← printableCount_eq_claim]
        unfold printableCount
        rw [List.countP_eq_length]
        intro b hb
        have hball := hall b hb
        rw [isPrintableByte_eq]
        simp only [decide_eq_true_eq]
        omega
      rw [hcount]
      have hpos : 0 < data.length := by
        cases data with
        | nil => exact absurd rfl hne
        | cons a as => simp
      omega

theorem claim2_witness :
    isLikelyTextContent [0] = false ∧ isLikelyTextContent [65] = true :=
  ⟨claim2_isLikelyText.2.1 [0] (by decide),
   claim2_isLikelyText.2.2 [65] (by decide) (by decide)⟩

/-- C7: `isTextContentType` accepts exactly the normalised MIME strings that
start with `text/` or equal one of the eleven `application/*` entries the
claim lists (the six `text/*` map entries are subsumed by the prefix rule);
the three quoted examples behave as stated. -/
theorem claim7_isTextContentType :
    (∀ ct : String,
      isTextContentType ct = true ↔
        (strStartsWith "text/" (mimeMainType ct) = true ∨
          mimeMainType ct ∈ claimTextTypes)) ∧
    isTextContentType "text/plain; charset=utf-8" = true ∧
    isTextContentType "text/anything" = true ∧
    isTextContentType "application/octet-stream" = false := by
  refine ⟨fun ct => ?_, by decide, by decide, by decide⟩
  unfold isTextContentType
  cases hp : strStartsWith "text/" (mimeMainType ct) with
  | true => simp [hp]
  | false =>
    simp only [hp, Bool.false_eq_true, if_false, false_or]
    constructor
    · intro h
      have hm : mimeMainType ct ∈ textTypes := by
        simpa [List.contains, List.elem_iff] using h
      generalize hgen : mimeMainType ct = m at hm hp
      fin_cases hm <;> first
        | (simp only [strStartsWith, listStartsWith] at hp; exact absurd hp (by decide))
        | decide
    · intro h
      generalize hgen : mimeMainType ct = m at h ⊢
      fin_cases h <;> decide

theorem pdfLoop_eq (pages : List PdfPageResult) (n : Nat) (idxs : List Nat) :
    ∀ buf : List Nat,
      pdfLoop pages n idxs buf = buf ++ (idxs.map (pageTextAt pages n)).flatten := by
  induction idxs with
  | nil =>
    intro buf
    simp [pdfLoop]
  | cons i rest ih =>
    intro buf
    rw [pdfLoop, ih]
    have hbody : pdfLoopBody pages n i buf = buf ++ pageTextAt pages n i := by
      unfold pdfLoopBody pageTextAt
      cases h : pages.get? (i - 1) with
      | none => simp
      | some p => cases p <;> simp
    rw [hbody]
    simp [List.append_assoc]

theorem extractPDFText_doc (pages : List PdfPageResult) :
    extractPDFText (.doc pages) =
      (if (trimSpaceBytes (pagesTextAmended pages)).length = 0 then ⟨false, [], none⟩
       else ⟨true, pagesTextAmended pages, none⟩) := by
  have hmin : (if pages.length > 100 then 100 else pages.length) = min pages.length 100 := by
    split <;> omega
  have htext : pdfAllText pages (min pages.length 100) = pagesTextAmended pages := by
    unfold pdfAllText pagesTextAmended
    rw [pdfLoop_eq]
    simp
  simp only [extractPDFText, hmin, htext]

/-- C3 counterexample: on a two-page document whose first page yields `"A"`
and whose second page fails, extraction succeeds with text `"A\n"` — a
newline follows the final contributed page text, so the text is not the
newline-joined contributing pages the claim describes. -/
theorem claim3_counterexample :
    extractPDFText (.doc [.text [65], .failed]) = ⟨true, [65, 10], none⟩ ∧
    ¬ (extractPDFText (.doc [.text [65], .failed])).text =
        claimPdfText [.text [65], .failed] := by
  constructor
  · decide
  · decide

/-- C3 (amended): whenever `extractPDFText` succeeds, the returned text is
the concatenation over slots `i = 1..min(pageCount,100)` of the page's plain
text followed by a newline when `i < min(pageCount,100)`, with null and
failing pages contributing nothing — so a skipped final slot leaves a
trailing newline after the last contributed text. -/
theorem claim3_amended (pages : List PdfPageResult) (t : List Nat)
    (h : extractPDFText (.doc pages) = ⟨true, t, none⟩) :
    t = pagesTextAmended pages := by
  rw [extractPDFText_doc] at h
  split at h
  · simp at h
  · have h' := h
    simp only [ExtractResult.mk.injEq] at h'
    exact h'.2.1.symm

theorem claim3_witness :
    ([72, 105, 10, 66] : List Nat) =
      pagesTextAmended [.text [72, 105], .null, .text [66]] :=
  claim3_amended [.text [72, 105], .null, .text [66]] [72, 105, 10, 66] (by decide)
